import Mathlib

/-!
Verification of the AQHI fetch-and-parse pipeline of
`hkopenai/hk-environment-mcp-server`
(`src/hkopenai/hk_environment_mcp_server/tools/aqhi.py`).

The Python module navigates a pre-parsed XML feed given as nested
mapping-of-lists (tag name -> list of child values), extracts one record per
well-formed feed item by string splitting, and exposes a top-level function
that propagates fetch errors verbatim.

Python strings are modelled as Lean `String`; Python `str.split(sep)` (with a
non-empty separator) and `str.strip()` are re-implemented below with
structural (fuel-based) recursion so that concrete inputs evaluate by
`decide`. Python dicts built by the code with fixed string keys are modelled
as association lists (`List (String × String)`), which keeps the exact key
set and key order of the dict literal visible.
-/

/-- Python whitespace characters stripped by `str.strip()` (ASCII range,
which is all the feed ever contains). -/
def pyIsSpace (c : Char) : Bool :=
  c = ' ' || c = '\t' || c = '\n' || c = '\r' || c = '\x0b' || c = '\x0c'

/-- `str.strip()` on the underlying character list. -/
def pyStripList (s : List Char) : List Char :=
  ((s.dropWhile pyIsSpace).reverse.dropWhile pyIsSpace).reverse

/-- Python `str.strip()`: remove leading and trailing whitespace. -/
def pyStrip (s : String) : String :=
  String.mk (pyStripList s.data)

/-- Worker for `pySplit`: left-to-right scan, splitting on each non-overlapping
occurrence of `sep`. The `fuel` argument only serves structural termination;
it starts at the length of the string and never runs out (each step consumes
at least one character), so the `0, s => [s]` fallback is unreachable for the
non-empty separators the parser uses. -/
def pySplitAux (sep : List Char) : Nat → List Char → List (List Char)
  | _, [] => [[]]
  | 0, s => [s]
  | fuel + 1, c :: rest =>
    if !sep.isEmpty && sep.isPrefixOf (c :: rest) then
      [] :: pySplitAux sep fuel ((c :: rest).drop sep.length)
    else
      match pySplitAux sep fuel rest with
      | [] => [[c]]
      | part :: parts => (c :: part) :: parts

/-- Python `s.split(sep)` for a non-empty separator `sep`: every
non-overlapping occurrence of `sep` separates two parts; empty parts are
kept; the empty string yields `[""]`. -/
def pySplit (s sep : String) : List String :=
  (pySplitAux sep.data s.data.length s.data).map String.mk

/-- One `<item>` of the feed, as the XML-to-dict collaborator delivers it:
a mapping with optional `title` / `description` keys, each holding a list of
text children (`none` models an absent key). -/
structure FeedItem where
  title : Option (List String)
  description : Option (List String)
deriving DecidableEq, Repr

/-- The `<channel>` mapping: an optional `item` key holding the item list. -/
structure RssChannel where
  item : Option (List FeedItem)
deriving DecidableEq, Repr

/-- The `<rss>` mapping: an optional `channel` key holding a list of
channels. -/
structure RssDoc where
  channel : Option (List RssChannel)
deriving DecidableEq, Repr

/-- The dict returned by the fetch collaborator: an optional `rss` key, and
an optional `error` key (present exactly when the fetch failed). -/
structure XmlData where
  rss : Option RssDoc
  error : Option String
deriving DecidableEq, Repr

/-- `item["title"][0] if "title" in item and item["title"] else ""`:
first text child when the key is present and its list non-empty,
otherwise the empty string. -/
def firstTextOr (field : Option (List String)) : String :=
  match field with
  | some (s :: _) => s
  | _ => ""

/-- A parsed station record, modelling the Python dict literal appended by
`parse_aqhi_data`: an association list over string keys. -/
abbrev StationReading := List (String × String)

/-- The dict literal built for one well-formed item, with its exact four
keys in source order. -/
def mkReading (station aqhi_value risk_level station_type : String) :
    StationReading :=
  [("station", station), ("aqhi_value", aqhi_value),
   ("risk_level", risk_level), ("station_type", station_type)]

/-- The station-type computation of `parse_aqhi_data` (lines 52-57):
split the description on `" - "`; with fewer than 2 parts the type stays
`"Unknown"`, otherwise part 1 is split on `":"`, and with at least 2 parts
there the type is part 0 of that split, stripped. -/
def stationTypeOf (description : String) : String :=
  let desc_parts := pySplit description " - "
  if 2 ≤ desc_parts.length then
    let type_info := pySplit (desc_parts.getD 1 "") ":"
    if 2 ≤ type_info.length then pyStrip (type_info.getD 0 "")
    else "Unknown"
  else "Unknown"

/-- The per-item body of the loop in `parse_aqhi_data`: `none` when the
title has fewer than 3 `" : "`-separated parts (nothing is appended),
otherwise the record appended for this item. -/
def parse_item (item : FeedItem) : Option StationReading :=
  let title := firstTextOr item.title
  let description := firstTextOr item.description
  let title_parts := pySplit title " : "
  if 3 ≤ title_parts.length then
    some (mkReading (pyStrip (title_parts.getD 0 ""))
      (pyStrip (title_parts.getD 1 ""))
      (pyStrip (title_parts.getD 2 ""))
      (stationTypeOf description))
  else
    none

/-- `parse_aqhi_data` (aqhi.py lines 27-67): defensive navigation
`rss` → `channel[0]` → `item`, then one loop pass per item, appending a
record exactly for the well-formed ones. -/
def parse_aqhi_data (xml_data : XmlData) : List StationReading :=
  match xml_data.rss with
  | none => []
  | some rssDoc =>
    match rssDoc.channel with
    | some (channel :: _) =>
      match channel.item with
      | some items => items.filterMap parse_item
      | none => []
    | _ => []

/-- `_get_current_aqhi` (aqhi.py lines 70-80), parameterised by the value
the fetch collaborator returned: if the dict has an `error` key it is
returned verbatim (left), otherwise the parse result (right). -/
def _get_current_aqhi (xml_data : XmlData) : XmlData ⊕ List StationReading :=
  if xml_data.error.isSome then Sum.inl xml_data
  else Sum.inr (parse_aqhi_data xml_data)

/-- A feed whose structure is fully present, with the given item list. -/
def feedOfItems (items : List FeedItem) : XmlData :=
  ⟨some ⟨some [⟨some items⟩]⟩, none⟩

/-- The `" : "`-split of an item's title. -/
def titleParts (item : FeedItem) : List String :=
  pySplit (firstTextOr item.title) " : "

/-- An item is well-formed when its title has at least 3 parts. -/
def titleWellFormed (item : FeedItem) : Bool :=
  decide (3 ≤ (titleParts item).length)

/-- The record emitted for a well-formed item. -/
def readingOf (item : FeedItem) : StationReading :=
  mkReading (pyStrip ((titleParts item).getD 0 ""))
    (pyStrip ((titleParts item).getD 1 ""))
    (pyStrip ((titleParts item).getD 2 ""))
    (stationTypeOf (firstTextOr item.description))

lemma parse_item_eq (item : FeedItem) :
    parse_item item = if titleWellFormed item then some (readingOf item)
      else none := by
  unfold parse_item readingOf titleWellFormed titleParts
  by_cases h : 3 ≤ (pySplit (firstTextOr item.title) " : ").length <;>
    simp [h]

lemma parse_feedOfItems (items : List FeedItem) :
    parse_aqhi_data (feedOfItems items) = items.filterMap parse_item := rfl

lemma filterMap_parse_item (items : List FeedItem) :
    items.filterMap parse_item
      = (items.filter titleWellFormed).map readingOf := by
  induction items with
  | nil => rfl
  | cons hd tl ih =>
    rw [List.filterMap_cons, List.filter_cons, parse_item_eq hd]
    cases hW : titleWellFormed hd <;> simp [ih]

lemma pySplit_sample : pySplit "Central/Western : 2 : Low" " : "
    = ["Central/Western", "2", "Low"] := by decide

lemma pyStrip_sample : pyStrip "  a b\t" = "a b" := by decide

lemma lookup_mkReading_station_type (a b c d : String) :
    (mkReading a b c d).lookup "station_type" = some d := rfl

lemma lookup_mkReading_risk_level (a b c d : String) :
    (mkReading a b c d).lookup "risk_level" = some c := rfl

lemma stationTypeOf_eq (description : String) :
    stationTypeOf description =
      if 2 ≤ (pySplit description " - ").length then
        if 2 ≤ (pySplit ((pySplit description " - ").getD 1 "") ":").length
        then pyStrip ((pySplit ((pySplit description " - ").getD 1 "") ":").getD 0 "")
        else "Unknown"
      else "Unknown" := rfl

lemma mem_parse_aqhi_data {xml_data : XmlData} {r : StationReading}
    (h : r ∈ parse_aqhi_data xml_data) :
    ∃ item : FeedItem, parse_item item = some r := by
  unfold parse_aqhi_data at h
  split at h
  · simp at h
  · split at h
    · split at h
      · rw [List.mem_filterMap] at h
        obtain ⟨item, _, hit⟩ := h
        exact ⟨item, hit⟩
      · simp at h
    · simp at h

/-- Concrete malformed item of the spec's own example: title with only two
`" : "`-separated parts. -/
def southernItem : FeedItem :=
  ⟨some ["Southern : 2"], some ["Southern - General Stations: 2 Low"]⟩

/-- Concrete well-formed item of the spec's worked example. -/
def centralItem : FeedItem :=
  ⟨some ["Central/Western : 2 : Low"],
   some ["Central/Western - General Stations: 2 Low - Tue, 17 Jun 2025 19:30"]⟩

/-- Item whose title has four `" : "`-separated parts. -/
def fourPartItem : FeedItem := ⟨some ["A : B : C : D"], none⟩

/-- C1: a feed item whose title splits on `" : "` into fewer than 3 parts
produces no record (the loop body appends nothing for it), and removing it
from the item list leaves the output of `parse_aqhi_data` unchanged, for any
surrounding items. -/
theorem C1_malformed_title_skipped (xs ys : List FeedItem) (item : FeedItem)
    (h : (titleParts item).length < 3) :
    parse_item item = none ∧
    parse_aqhi_data (feedOfItems (xs ++ item :: ys))
      = parse_aqhi_data (feedOfItems (xs ++ ys)) := by
  have hnone : parse_item item = none := by
    rw [parse_item_eq]
    simp [titleWellFormed, Nat.not_le.mpr h]
  refine ⟨hnone, ?_⟩
  rw [parse_feedOfItems, parse_feedOfItems, List.filterMap_append,
    List.filterMap_append, List.filterMap_cons, hnone]

theorem C1_witness :
    (titleParts southernItem).length < 3 ∧
    parse_aqhi_data (feedOfItems ([] ++ southernItem :: []))
      = parse_aqhi_data (feedOfItems ([] ++ [])) :=
  ⟨by decide,
   (C1_malformed_title_skipped [] [] southernItem (by decide)).2⟩

/-- C2 counterexample: for the feed whose single item has the two-part title
`"Southern : 2"`, the output length (0) differs from the number of `<item>`
elements (1), refuting "length equals item count unconditionally". -/
theorem C2_counterexample :
    ¬ ((parse_aqhi_data (feedOfItems [southernItem])).length
        = [southernItem].length) := by decide

/-- C2 (amended): the output of `parse_aqhi_data` has exactly one record per
WELL-FORMED feed item (title with at least 3 `" : "`-separated parts), in
feed order; its length equals the number of well-formed items, not the total
item count. -/
theorem C2_one_record_per_wellformed_item (items : List FeedItem) :
    parse_aqhi_data (feedOfItems items)
      = (items.filter titleWellFormed).map readingOf ∧
    (parse_aqhi_data (feedOfItems items)).length
      = (items.filter titleWellFormed).length := by
  constructor
  · rw [parse_feedOfItems, filterMap_parse_item]
  · rw [parse_feedOfItems, filterMap_parse_item, List.length_map]

/-- C3: an item whose title splits into at least 3 parts yields a record with
station = stripped part 0, aqhi_value = stripped part 1, risk_level =
stripped part 2; and the spec's worked example parses to
`{station: "Central/Western", aqhi_value: "2", risk_level: "Low",
station_type: "General Stations"}`. -/
theorem C3_wellformed_title_fields (item : FeedItem)
    (h : 3 ≤ (titleParts item).length) :
    parse_item item = some (mkReading (pyStrip ((titleParts item).getD 0 ""))
      (pyStrip ((titleParts item).getD 1 ""))
      (pyStrip ((titleParts item).getD 2 ""))
      (stationTypeOf (firstTextOr item.description))) ∧
    parse_aqhi_data (feedOfItems [centralItem])
      = [mkReading "Central/Western" "2" "Low" "General Stations"] := by
  constructor
  · rw [parse_item_eq]
    simp [titleWellFormed, h, readingOf]
  · decide

theorem C3_witness :
    parse_aqhi_data (feedOfItems [centralItem])
      = [mkReading "Central/Western" "2" "Low" "General Stations"] :=
  (C3_wellformed_title_fields centralItem (by decide)).2

/-- C4: every emitted record carries `station_type` computed from the item's
description by `stationTypeOf`; that computation returns "Unknown" when the
`" - "`-split has fewer than 2 parts or when part 1's `":"`-split has fewer
than 2 parts, and otherwise the stripped part 0 of the second split; in
particular `"no dash here"` gives "Unknown". -/
theorem C4_station_type_rule (item : FeedItem) (r : StationReading)
    (h : parse_item item = some r) :
    r.lookup "station_type"
      = some (stationTypeOf (firstTextOr item.description)) ∧
    (∀ description : String,
      ((pySplit description " - ").length < 2 →
        stationTypeOf description = "Unknown") ∧
      (2 ≤ (pySplit description " - ").length →
        ((pySplit ((pySplit description " - ").getD 1 "") ":").length < 2 →
          stationTypeOf description = "Unknown") ∧
        (2 ≤ (pySplit ((pySplit description " - ").getD 1 "") ":").length →
          stationTypeOf description
            = pyStrip ((pySplit ((pySplit description " - ").getD 1 "") ":").getD 0 "")))) ∧
    stationTypeOf "no dash here" = "Unknown" := by
  refine ⟨?_, ?_, by decide⟩
  · rw [parse_item_eq] at h
    by_cases hw : titleWellFormed item
    · rw [if_pos hw] at h
      rw [← Option.some_inj.mp h, readingOf, lookup_mkReading_station_type]
    · rw [if_neg hw] at h
      exact absurd h (by simp)
  · intro description
    refine ⟨fun h1 => ?_, fun h1 => ⟨fun h2 => ?_, fun h2 => ?_⟩⟩
    · rw [stationTypeOf_eq, if_neg (Nat.not_le.mpr h1)]
    · rw [stationTypeOf_eq, if_pos h1, if_neg (Nat.not_le.mpr h2)]
    · rw [stationTypeOf_eq, if_pos h1, if_pos h2]

theorem C4_witness :
    (mkReading "Central/Western" "2" "Low" "General Stations").lookup
        "station_type"
      = some (stationTypeOf (firstTextOr centralItem.description)) :=
  (C4_station_type_rule centralItem
    (mkReading "Central/Western" "2" "Low" "General Stations") (by decide)).1

/-- C5: `_get_current_aqhi` returns a failing fetch result (dict with an
`error` key) verbatim, untouched by the parser; on a fetch result without an
`error` key it returns exactly `parse_aqhi_data` of that content. -/
theorem C5_error_propagated_verbatim (xml_data : XmlData) :
    (xml_data.error.isSome → _get_current_aqhi xml_data = Sum.inl xml_data) ∧
    (xml_data.error = none →
      _get_current_aqhi xml_data = Sum.inr (parse_aqhi_data xml_data)) := by
  constructor
  · intro h
    simp [_get_current_aqhi, h]
  · intro h
    simp [_get_current_aqhi, h]

theorem C5_witness :
    _get_current_aqhi ⟨none, some "HTTP 500"⟩
      = Sum.inl ⟨none, some "HTTP 500"⟩ :=
  (C5_error_propagated_verbatim ⟨none, some "HTTP 500"⟩).1 (by decide)

/-- C6: when the `rss` → `channel[0]` → `item` structure is absent or empty
at any level (no `rss` key, no `channel` key, empty channel list, no `item`
key, or zero items), `parse_aqhi_data` returns the empty sequence; being a
total function of the model, it raises nothing. -/
theorem C6_structural_absence_empty (e : Option String)
    (chs : List RssChannel) :
    parse_aqhi_data ⟨none, e⟩ = [] ∧
    parse_aqhi_data ⟨some ⟨none⟩, e⟩ = [] ∧
    parse_aqhi_data ⟨some ⟨some []⟩, e⟩ = [] ∧
    parse_aqhi_data ⟨some ⟨some (⟨none⟩ :: chs)⟩, e⟩ = [] ∧
    parse_aqhi_data ⟨some ⟨some (⟨some []⟩ :: chs)⟩, e⟩ = [] :=
  ⟨rfl, rfl, rfl, rfl, rfl⟩

/-- C7: when every item of the feed is well-formed, `parse_aqhi_data` emits
exactly one record per item, the i-th derived from the i-th item (the output
is the map of `readingOf` over the items), and the length equals the item
count. -/
theorem C7_wellformed_feed_in_order (items : List FeedItem)
    (h : ∀ item ∈ items, titleWellFormed item) :
    parse_aqhi_data (feedOfItems items) = items.map readingOf ∧
    (parse_aqhi_data (feedOfItems items)).length = items.length := by
  have key : parse_aqhi_data (feedOfItems items) = items.map readingOf := by
    rw [parse_feedOfItems, filterMap_parse_item, List.filter_eq_self.mpr h]
  exact ⟨key, by rw [key, List.length_map]⟩

/-- The two well-formed items of the repository's own sample feed. -/
def sampleItems : List FeedItem :=
  [centralItem,
   ⟨some ["Southern : 2 : Low"],
    some ["Southern - General Stations: 2 Low - Tue, 17 Jun 2025 19:30"]⟩]

theorem C7_witness :
    parse_aqhi_data (feedOfItems sampleItems) = sampleItems.map readingOf ∧
    (parse_aqhi_data (feedOfItems sampleItems)).length
      = sampleItems.length :=
  C7_wellformed_feed_in_order sampleItems (by decide)

/-- Two successive invocations of the top-level function over the same
fetched content. -/
def callTwice (xml_data : XmlData) :
    (XmlData ⊕ List StationReading) × (XmlData ⊕ List StationReading) :=
  (_get_current_aqhi xml_data, _get_current_aqhi xml_data)

/-- C8: `_get_current_aqhi` is a pure function of the fetched content: two
calls over the same feed content yield identical results. -/
theorem C8_deterministic (xml_data : XmlData) :
    (callTwice xml_data).1 = (callTwice xml_data).2 := rfl

/-- C9: every record emitted by `parse_aqhi_data` is a mapping with exactly
the four keys "station", "aqhi_value", "risk_level", "station_type", in that
order, and no others; all values are strings by the type of
`StationReading`. -/
theorem C9_record_has_exactly_four_keys (xml_data : XmlData)
    (r : StationReading) (h : r ∈ parse_aqhi_data xml_data) :
    r.map Prod.fst = ["station", "aqhi_value", "risk_level", "station_type"]
      ∧ r.length = 4 := by
  obtain ⟨item, hit⟩ := mem_parse_aqhi_data h
  rw [parse_item_eq] at hit
  by_cases hw : titleWellFormed item
  · rw [if_pos hw] at hit
    rw [← Option.some_inj.mp hit, readingOf, mkReading]
    exact ⟨rfl, rfl⟩
  · rw [if_neg hw] at hit
    exact absurd hit (by simp)

theorem C9_witness :
    (mkReading "Central/Western" "2" "Low" "General Stations").map Prod.fst
      = ["station", "aqhi_value", "risk_level", "station_type"] ∧
    (mkReading "Central/Western" "2" "Low" "General Stations").length = 4 :=
  C9_record_has_exactly_four_keys (feedOfItems [centralItem])
    (mkReading "Central/Western" "2" "Low" "General Stations") (by decide)

/-- C10: a title with strictly more than 3 `" : "`-separated parts still
yields a record whose risk_level is exactly the stripped third part — the
later parts are discarded; in particular `"A : B : C : D"` yields
risk_level "C" with no trace of "D" anywhere in the record. -/
theorem C10_extra_parts_discarded (item : FeedItem)
    (h : 3 < (titleParts item).length) :
    parse_item item = some (readingOf item) ∧
    (readingOf item).lookup "risk_level"
      = some (pyStrip ((titleParts item).getD 2 "")) ∧
    parse_aqhi_data (feedOfItems [fourPartItem])
      = [mkReading "A" "B" "C" "Unknown"] := by
  refine ⟨?_, ?_, by decide⟩
  · rw [parse_item_eq]
    simp [titleWellFormed, Nat.le_of_lt h]
  · rw [readingOf, lookup_mkReading_risk_level]

theorem C10_witness :
    parse_item fourPartItem = some (mkReading "A" "B" "C" "Unknown") := by
  have h := (C10_extra_parts_discarded fourPartItem (by decide)).1
  exact (by decide : readingOf fourPartItem
    = mkReading "A" "B" "C" "Unknown") ▸ h
